import Mathlib

set_option maxRecDepth 8000

/-!
Verification development for the Oracle-Ergo off-chain component.

This file shallowly embeds the parts of the repository that the verified
properties talk about:

* the parameterized contract verifier (`src/core/src/contracts/oracle.rs`
  and `src/core/src/contracts/pool.rs`), over a model of the ergo-lib
  `ErgoTree` constants API (`get_constants`, `get_constant`, `with_constant`,
  `try_extract_into::<TokenId>`), whose behaviour is documented in the spec
  (section 4.1): a tree either parses to a list of typed constants or is
  unparsed, `with_constant` fails on a missing slot or a type-incompatible
  substitution, and extraction fails on a constant of the wrong type;
* the node scan registry (`src/core/src/scans/registry.rs`), including a
  concrete printer/parser pair for the persisted JSON mapping (the shape
  serde_json produces for the annotated `NodeScanRegistry` struct, as pinned
  down by the repository's own `check_encoded_json` test) and an explicit
  environment/event-trace model for the file system and node collaborators;
* the runtime datapoint-source selection (`src/core/src/datapoint_source.rs`);
* the chained bootstrap scenario of `src/core/src/tests/bootstrap_and_run.rs`.

Rust `Result` becomes `Except`, `Option` stays `Option`; a Rust function
that can `panic!` (via `unwrap`) returns a `PResult`, whose `panic`
constructor records the panic outcome explicitly.
-/

/-- Outcome of a Rust computation which can panic (`unwrap` on an error),
return an error, or succeed. -/
inductive PResult (ε α : Type) where
  | panic : PResult ε α
  | error (e : ε) : PResult ε α
  | ok (a : α) : PResult ε α
deriving DecidableEq

/-- Opaque, immutable, equality-comparable token identifier (spec section 3,
`ergo_lib::ergotree_ir::chain::token::TokenId`). Only equality of the
underlying 32-byte digest matters to this component, so the digest is
abstracted to a `Nat`. -/
structure TokenId where
  id : Nat
deriving DecidableEq

/-- A constant held in a slot of an ergo tree.  `tokenId` is a `Coll[Byte]`
constant holding a well-formed 32-byte token id; `other tpe` is any other
constant, carrying its type code (`other 0` stands for a `Coll[Byte]`
that is not a valid token id, so it is type-compatible with `tokenId`
yet fails extraction). -/
inductive Constant where
  | tokenId (t : TokenId) : Constant
  | other (tpe : Nat) : Constant
deriving DecidableEq

/-- Type code of a constant; `tokenId` constants are `Coll[Byte]` (code 0). -/
def Constant.tpe : Constant → Nat
  | .tokenId _ => 0
  | .other t => t

/-- Error of `try_extract_into::<TokenId>` on a constant of the wrong type. -/
inductive TryExtractFromError where
  | wrongType : TryExtractFromError
deriving DecidableEq

/-- Model of `constant.try_extract_into::<TokenId>()`: succeeds exactly on a
constant holding a well-formed token id. -/
def Constant.try_extract_token_id : Constant → Except TryExtractFromError TokenId
  | .tokenId t => .ok t
  | .other _ => .error .wrongType

/-- An ergo tree is either parsed, exposing its ordered constant slots, or
unparsed (ergo-lib keeps trees whose body fails to deserialize as an
`Unparsed` value, on which the constants API reports errors). -/
inductive ErgoTree where
  | parsed (constants : List Constant) : ErgoTree
  | unparsed : ErgoTree
deriving DecidableEq

/-- Model of `ErgoTree::get_constants`: the constant list of a parsed tree;
an error on an unparsed tree. -/
def ErgoTree.get_constants : ErgoTree → Except Unit (List Constant)
  | .parsed cs => .ok cs
  | .unparsed => .error ()

/-- Model of `ErgoTree::get_constant(index)`: `Ok(None)` when the parsed tree
has no slot at `index`, an error on an unparsed tree. -/
def ErgoTree.get_constant : ErgoTree → Nat → Except Unit (Option Constant)
  | .parsed cs, i => .ok cs[i]?
  | .unparsed, _ => .error ()

/-- Errors of `ErgoTree::with_constant` (spec section 4.1: substitution fails
when the template lacks a constant at the index, or when it is
type-incompatible). -/
inductive ErgoTreeConstantError where
  | outOfBounds : ErgoTreeConstantError
  | typeMismatch : ErgoTreeConstantError
  | unparsedTree : ErgoTreeConstantError
deriving DecidableEq

/-- Model of `ErgoTree::with_constant(index, c)`: replace the constant at
`index` when one is present and of the same type. -/
def ErgoTree.with_constant : ErgoTree → Nat → Constant → Except ErgoTreeConstantError ErgoTree
  | .unparsed, _, _ => .error .unparsedTree
  | .parsed cs, i, c =>
    match cs[i]? with
    | none => .error .outOfBounds
    | some old => if old.tpe = c.tpe then .ok (.parsed (cs.set i c)) else .error .typeMismatch

/-- Decidable equality of `Except` values, componentwise. -/
instance {ε α : Type} [DecidableEq ε] [DecidableEq α] : DecidableEq (Except ε α)
  | .error a, .error b =>
    if h : a = b then isTrue (by rw [h]) else isFalse (by intro hh; cases hh; exact h rfl)
  | .error _, .ok _ => isFalse (by intro h; cases h)
  | .ok _, .error _ => isFalse (by intro h; cases h)
  | .ok a, .ok b =>
    if h : a = b then isTrue (by rw [h]) else isFalse (by intro hh; cases hh; exact h rfl)

/-- Opaque parsing error of `NetworkAddress::address().script()`. -/
inductive SigmaParsingError where
  | parseFailure : SigmaParsingError
deriving DecidableEq

/-- A network-encoded P2S address; `script` is the outcome of
`address().script()` (which may itself yield an unparsed tree, since
ergo-lib preserves trees whose body fails to deserialize). -/
structure NetworkAddress where
  script : Except SigmaParsingError ErgoTree
deriving DecidableEq

/-- Parameters for the oracle contract (`contracts/oracle.rs`). -/
structure OracleContractParameters where
  p2s : NetworkAddress
  pool_nft_index : Nat
  pool_nft_token_id : TokenId
deriving DecidableEq

/-- Error type of the oracle contract verifier (`OracleContractError`). -/
inductive OracleContractError where
  | noPoolNftId : OracleContractError
  | unknownPoolNftId : OracleContractError
  | sigmaParsing (e : SigmaParsingError) : OracleContractError
  | ergoTreeConstant (e : ErgoTreeConstantError) : OracleContractError
  | tryExtractFrom (e : TryExtractFromError) : OracleContractError
deriving DecidableEq

/-- The oracle contract: a verified ergo tree plus the slot index its pool
NFT was checked at (`struct OracleContract`). -/
structure OracleContract where
  ergo_tree : ErgoTree
  pool_nft_index : Nat
deriving DecidableEq

/-- Model of `OracleContract::from_ergo_tree`.  Mirrors the source line by
line: the leading `dbg!(ergo_tree.get_constants().unwrap())` panics when the
constants cannot be obtained; then the constant at `pool_nft_index` is
fetched (absence mapped to `NoPoolNftId`), extracted as a token id, and
compared with the expected pool NFT id (`UnknownPoolNftId` on mismatch). -/
def OracleContract.from_ergo_tree (ergo_tree : ErgoTree)
    (contract_parameters : OracleContractParameters) :
    PResult OracleContractError OracleContract :=
  match ergo_tree.get_constants with
  | .error _ => .panic
  | .ok _ =>
    match ergo_tree.get_constant contract_parameters.pool_nft_index with
    | .error _ => .error .noPoolNftId
    | .ok none => .error .noPoolNftId
    | .ok (some c) =>
      match c.try_extract_token_id with
      | .error e => .error (.tryExtractFrom e)
      | .ok pool_nft_token_id =>
        if pool_nft_token_id = contract_parameters.pool_nft_token_id then
          .ok ⟨ergo_tree, contract_parameters.pool_nft_index⟩
        else .error .unknownPoolNftId

/-- Model of `OracleContract::load`: parse the parameter address's script and
verify it with `from_ergo_tree`. -/
def OracleContract.load (contract_parameters : OracleContractParameters) :
    PResult OracleContractError OracleContract :=
  match contract_parameters.p2s.script with
  | .error e => .error (.sigmaParsing e)
  | .ok ergo_tree => OracleContract.from_ergo_tree ergo_tree contract_parameters

/-- Model of `OracleContract::create`: substitute the expected pool NFT id at
its slot in the template script, then verify with `from_ergo_tree`. -/
def OracleContract.create (contract_parameters : OracleContractParameters) :
    PResult OracleContractError OracleContract :=
  match contract_parameters.p2s.script with
  | .error e => .error (.sigmaParsing e)
  | .ok tree =>
    match tree.with_constant contract_parameters.pool_nft_index
        (.tokenId contract_parameters.pool_nft_token_id) with
    | .error e => .error (.ergoTreeConstant e)
    | .ok ergo_tree => OracleContract.from_ergo_tree ergo_tree contract_parameters

/-- Model of `OracleContract::pool_nft_token_id`, whose body unwraps
`get_constant`, the slot option and the extraction; `none` records the panic
of one of those unwraps. -/
def OracleContract.pool_nft_token_id (c : OracleContract) : Option TokenId :=
  match c.ergo_tree.get_constant c.pool_nft_index with
  | .error _ => none
  | .ok none => none
  | .ok (some k) =>
    match k.try_extract_token_id with
    | .error _ => none
    | .ok t => some t

/-- Parameters for the pool contract (`contracts/pool.rs`). -/
structure PoolContractParameters where
  p2s : NetworkAddress
  refresh_nft_index : Nat
  refresh_nft_token_id : TokenId
  update_nft_index : Nat
  update_nft_token_id : TokenId
deriving DecidableEq

/-- Error type of the pool contract verifier (`PoolContractError`). -/
inductive PoolContractError where
  | noUpdateNftId : PoolContractError
  | noRefreshNftId : PoolContractError
  | unknownRefreshNftId : PoolContractError
  | unknownUpdateNftId : PoolContractError
  | sigmaParsing (e : SigmaParsingError) : PoolContractError
  | ergoTreeConstant (e : ErgoTreeConstantError) : PoolContractError
  | tryExtractFrom (e : TryExtractFromError) : PoolContractError
deriving DecidableEq

/-- The pool contract: a verified ergo tree plus the two checked slot
indices (`struct PoolContract`). -/
structure PoolContract where
  ergo_tree : ErgoTree
  refresh_nft_index : Nat
  update_nft_index : Nat
deriving DecidableEq

/-- Model of `PoolContract::from_ergo_tree`: the `dbg!` unwrap, then the
refresh-NFT slot check (absence -> `NoRefreshNftId`, mismatch ->
`UnknownRefreshNftId`), then the update-NFT slot check (absence ->
`NoUpdateNftId`, mismatch -> `UnknownUpdateNftId`). -/
def PoolContract.from_ergo_tree (ergo_tree : ErgoTree)
    (parameters : PoolContractParameters) :
    PResult PoolContractError PoolContract :=
  match ergo_tree.get_constants with
  | .error _ => .panic
  | .ok _ =>
    match ergo_tree.get_constant parameters.refresh_nft_index with
    | .error _ => .error .noRefreshNftId
    | .ok none => .error .noRefreshNftId
    | .ok (some c) =>
      match c.try_extract_token_id with
      | .error e => .error (.tryExtractFrom e)
      | .ok refresh_nft_token_id =>
        if refresh_nft_token_id = parameters.refresh_nft_token_id then
          match ergo_tree.get_constant parameters.update_nft_index with
          | .error _ => .error .noUpdateNftId
          | .ok none => .error .noUpdateNftId
          | .ok (some c2) =>
            match c2.try_extract_token_id with
            | .error e => .error (.tryExtractFrom e)
            | .ok update_nft_token_id =>
              if update_nft_token_id = parameters.update_nft_token_id then
                .ok ⟨ergo_tree, parameters.refresh_nft_index, parameters.update_nft_index⟩
              else .error .unknownUpdateNftId
        else .error .unknownRefreshNftId

/-- Model of `PoolContract::load`. -/
def PoolContract.load (parameters : PoolContractParameters) :
    PResult PoolContractError PoolContract :=
  match parameters.p2s.script with
  | .error e => .error (.sigmaParsing e)
  | .ok ergo_tree => PoolContract.from_ergo_tree ergo_tree parameters

/-- Model of `PoolContract::create`: substitute the refresh NFT id, then the
update NFT id, then verify with `from_ergo_tree`. -/
def PoolContract.create (parameters : PoolContractParameters) :
    PResult PoolContractError PoolContract :=
  match parameters.p2s.script with
  | .error e => .error (.sigmaParsing e)
  | .ok tree =>
    match tree.with_constant parameters.refresh_nft_index
        (.tokenId parameters.refresh_nft_token_id) with
    | .error e => .error (.ergoTreeConstant e)
    | .ok tree2 =>
      match tree2.with_constant parameters.update_nft_index
          (.tokenId parameters.update_nft_token_id) with
      | .error e => .error (.ergoTreeConstant e)
      | .ok ergo_tree => PoolContract.from_ergo_tree ergo_tree parameters

/-- Model of `PoolContract::refresh_nft_token_id` (unwrapping accessor). -/
def PoolContract.refresh_nft_token_id (c : PoolContract) : Option TokenId :=
  match c.ergo_tree.get_constant c.refresh_nft_index with
  | .error _ => none
  | .ok none => none
  | .ok (some k) =>
    match k.try_extract_token_id with
    | .error _ => none
    | .ok t => some t

/-- Model of `PoolContract::update_nft_token_id` (unwrapping accessor). -/
def PoolContract.update_nft_token_id (c : PoolContract) : Option TokenId :=
  match c.ergo_tree.get_constant c.update_nft_index with
  | .error _ => none
  | .ok none => none
  | .ok (some k) =>
    match k.try_extract_token_id with
    | .error _ => none
    | .ok t => some t

/-- Opaque node-issued scan handle (`ergo_node_interface::ScanId`), a
numeric id serialized as a decimal JSON string. -/
structure ScanId where
  id : Nat
deriving DecidableEq

/-- A registered token scan (`GenericTokenScan`), identified by its handle. -/
structure GenericTokenScan where
  scan_id : ScanId
deriving DecidableEq

/-- The scan registry (`struct NodeScanRegistry`): one fixed logical role,
serialized under the key `All Datapoints Scan`. -/
structure NodeScanRegistry where
  oracle_token_scan : GenericTokenScan
deriving DecidableEq

/-- Character of a decimal digit `d < 10`. -/
def digitChar (d : Nat) : Char := Char.ofNat (48 + d)

/-- Big-endian decimal character rendering, fuelled for structural
recursion (`fuel ≥ n` suffices). -/
def natToCharsAux : Nat → Nat → List Char
  | 0, _ => []
  | fuel + 1, n =>
    if n = 0 then [] else natToCharsAux fuel (n / 10) ++ [digitChar (n % 10)]

/-- Big-endian decimal character rendering of a positive `Nat`. -/
def natToChars (n : Nat) : List Char := natToCharsAux n n

/-- Decimal string of a `Nat` (what serde emits for a numeric scan id, per
the repository's `check_encoded_json` test). -/
def natToString (n : Nat) : String := if n = 0 then "0" else ⟨natToChars n⟩

/-- Numeric value of a decimal digit character. -/
def digitVal (c : Char) : Option Nat :=
  if 48 ≤ c.toNat ∧ c.toNat ≤ 57 then some (c.toNat - 48) else none

/-- Values of a list of digit characters; `none` when one is not a digit. -/
def digitsVals : List Char → Option (List Nat)
  | [] => some []
  | c :: cs =>
    match digitVal c, digitsVals cs with
    | some d, some ds => some (d :: ds)
    | _, _ => none

/-- Parse a nonempty big-endian decimal character list into a `Nat`. -/
def parseNatChars (l : List Char) : Option Nat :=
  if l = [] then none
  else
    match digitsVals l.reverse with
    | some ds => some (Nat.ofDigits 10 ds)
    | none => none

/-- Whitespace as skipped between JSON tokens. -/
def isWsChar (c : Char) : Bool := c == ' ' || c == '\n' || c == '\t' || c == '\r'

/-- Drop leading whitespace. -/
def skipWs : List Char → List Char
  | [] => []
  | c :: cs => if isWsChar c then skipWs cs else c :: cs

/-- Characters of one pretty-printed JSON field, two-space indented:
`  "key": "value"` (the layout serde_json's pretty printer uses, pinned by
the repository's `check_encoded_json` test). -/
def fieldChars (kv : String × String) : List Char :=
  ' ' :: ' ' :: '"' :: (kv.1.data ++ '"' :: ':' :: ' ' :: '"' :: (kv.2.data ++ ['"']))

/-- Characters of the remaining fields of a pretty-printed JSON object,
followed by the closing newline and brace. -/
def fieldsTail : List (String × String) → List Char
  | [] => ['\n', '}']
  | [kv] => fieldChars kv ++ ['\n', '}']
  | kv :: kv2 :: rest => fieldChars kv ++ ',' :: '\n' :: fieldsTail (kv2 :: rest)

/-- Pretty-print a flat JSON object of string fields the way
`serde_json::to_string_pretty` does. -/
def printObj (fields : List (String × String)) : List Char :=
  match fields with
  | [] => ['{', '}']
  | _ => '{' :: '\n' :: fieldsTail fields

/-- Parse a JSON string literal body up to the closing quote (no escape
sequences; the registry's keys and handles contain none). -/
def parseStringLit : List Char → Option (List Char × List Char)
  | [] => none
  | c :: cs =>
    if c = '"' then some ([], cs)
    else
      match parseStringLit cs with
      | some (s, r) => some (c :: s, r)
      | none => none

/-- Parse the fields of a JSON object after its opening brace, consuming the
closing brace; fuelled by the input length. -/
def parseFieldsAux : Nat → List Char → Option (List (String × String) × List Char)
  | 0, _ => none
  | fuel + 1, l =>
    match skipWs l with
    | '"' :: r0 =>
      match parseStringLit r0 with
      | none => none
      | some (k, r1) =>
        match skipWs r1 with
        | ':' :: r2 =>
          match skipWs r2 with
          | '"' :: r3 =>
            match parseStringLit r3 with
            | none => none
            | some (v, r4) =>
              match skipWs r4 with
              | ',' :: r5 =>
                match parseFieldsAux fuel r5 with
                | some (fs, r6) => some ((⟨k⟩, ⟨v⟩) :: fs, r6)
                | none => none
              | '}' :: r5 => some ([(⟨k⟩, ⟨v⟩)], r5)
              | _ => none
          | _ => none
        | _ => none
    | _ => none

/-- Parse a complete flat JSON object of string fields. -/
def parseObj (l : List Char) : Option (List (String × String)) :=
  match skipWs l with
  | '{' :: rest =>
    match skipWs rest with
    | '}' :: r2 => if skipWs r2 = [] then some [] else none
    | _ =>
      match parseFieldsAux (rest.length + 1) rest with
      | some (fs, r) => if skipWs r = [] then some fs else none
      | none => none
  | _ => none

/-- The serialized role name of the oracle token scan
(`#[serde(rename = "All Datapoints Scan")]`). -/
def scanKey : String := "All Datapoints Scan"

/-- JSON string safety: no quote, no backslash, no control characters, so
the modelled printer (which performs no escaping, like serde on such
strings) emits a well-formed JSON string literal. -/
def jsonSafeStr (s : String) : Bool :=
  s.data.all (fun c => c != '"' && c != '\\' && decide (32 ≤ c.toNat))

/-- Opaque scan-registration error (`ScanError`). -/
inductive ScanError where
  | scanFailed (msg : String) : ScanError
deriving DecidableEq

/-- Opaque node RPC error (`NodeApiError`). -/
inductive NodeApiError where
  | rpc (msg : String) : NodeApiError
deriving DecidableEq

/-- Error type of the scan registry (`NodeScanRegistryError`): scan
registration, node RPC, file parse and file I/O errors are distinct. -/
inductive NodeScanRegistryError where
  | scan (e : ScanError) : NodeScanRegistryError
  | nodeApi (e : NodeApiError) : NodeScanRegistryError
  | parse (msg : String) : NodeScanRegistryError
  | ioErr (msg : String) : NodeScanRegistryError
deriving DecidableEq

/-- Model of `NodeScanRegistry::save_to_json_str`: the serde_json pretty
printing of the registry struct (a single field `All Datapoints Scan`
holding the decimal handle, per the `check_encoded_json` test). -/
def NodeScanRegistry.save_to_json_str (r : NodeScanRegistry) : String :=
  ⟨printObj [(scanKey, natToString r.oracle_token_scan.scan_id.id)]⟩

/-- Model of `NodeScanRegistry::load_from_json_str`: serde_json parsing of
the persisted mapping into the registry struct.  Serde's derived
deserializer ignores unknown keys, requires the renamed field exactly once,
and fails on a malformed document, a missing field, a duplicated field, or
a non-numeric handle. -/
def NodeScanRegistry.load_from_json_str (json_str : String) :
    Except NodeScanRegistryError NodeScanRegistry :=
  match parseObj json_str.data with
  | none => .error (.parse "invalid json")
  | some fields =>
    match fields.filter (fun kv => kv.1 == scanKey) with
    | [] => .error (.parse "missing field All Datapoints Scan")
    | [kv] =>
      match parseNatChars kv.2.data with
      | some n => .ok ⟨⟨⟨n⟩⟩⟩
      | none => .error (.parse "invalid scan id")
    | _ :: _ :: _ => .error (.parse "duplicate field All Datapoints Scan")

/-- Observable interactions of the scan registry with the file system and
the node (spec section 6's collaborator calls). -/
inductive ScanEvent where
  | readFile : ScanEvent
  | registerScan (t : TokenId) : ScanEvent
  | writeFile (contents : String) : ScanEvent
  | rescanFromHeight (h : Nat) : ScanEvent
  | pollHeights (wallet chain : Nat) : ScanEvent
  | sleepSec (n : Nat) : ScanEvent
deriving DecidableEq

/-- Whether an event registers a scan, writes the scan file, or requests a
rescan (as opposed to merely reading or polling). -/
def isMutatingEvent : ScanEvent → Bool
  | .registerScan _ => true
  | .writeFile _ => true
  | .rescanFromHeight _ => true
  | _ => false

/-- Outcome of a registry operation that may loop while polling the node:
success, a surfaced error, or exhaustion of the observation fuel (the Rust
loop has no timeout, so a run that never converges never returns). -/
inductive RunResult (ε α : Type) where
  | ok (a : α) : RunResult ε α
  | error (e : ε) : RunResult ε α
  | outOfFuel : RunResult ε α
deriving DecidableEq

/-- Responses of the external collaborators for one run (spec section 6):
the scan-IDs file read, scan registration, scan-file write, rescan request,
and the `k`-th paired wallet-height/chain-height poll.  `oracleTokenId`
is `POOL_CONFIG.token_ids.oracle_token_id`. -/
structure Env where
  readFile : Except String String
  registerScan : Except ScanError ScanId
  writeFile : String → Except String Unit
  rescan : Except NodeApiError Unit
  heights : Nat → Except NodeApiError (Nat × Nat)
  oracleTokenId : TokenId

/-- `env` with the scan-IDs file read failing with message `m`. -/
def Env.withReadError (env : Env) (m : String) : Env :=
  ⟨.error m, env.registerScan, env.writeFile, env.rescan, env.heights, env.oracleTokenId⟩

/-- Model of `NodeScanRegistry::register_and_save_scans_inner`: register a
scan for the oracle token (`GenericTokenScan::register`, modelled from the
spec as a node collaborator call since its source lies outside the embedded
files), persist the new registry to the scan-IDs file, and request a rescan
from height 0; each step's failure aborts with its distinct error. -/
def register_and_save_scans_inner (env : Env) :
    Except NodeScanRegistryError NodeScanRegistry × List ScanEvent :=
  match env.registerScan with
  | .error e => (.error (.scan e), [.registerScan env.oracleTokenId])
  | .ok sid =>
    match env.writeFile (NodeScanRegistry.save_to_json_str ⟨⟨sid⟩⟩) with
    | .error msg =>
      (.error (.ioErr msg),
        [.registerScan env.oracleTokenId,
         .writeFile (NodeScanRegistry.save_to_json_str ⟨⟨sid⟩⟩)])
    | .ok _ =>
      match env.rescan with
      | .error e =>
        (.error (.nodeApi e),
          [.registerScan env.oracleTokenId,
           .writeFile (NodeScanRegistry.save_to_json_str ⟨⟨sid⟩⟩),
           .rescanFromHeight 0])
      | .ok _ =>
        (.ok ⟨⟨sid⟩⟩,
          [.registerScan env.oracleTokenId,
           .writeFile (NodeScanRegistry.save_to_json_str ⟨⟨sid⟩⟩),
           .rescanFromHeight 0])

/-- The polling loop body of `wait_for_node_rescan`: fetch both heights,
stop when they agree, otherwise sleep one second and poll again. -/
def waitLoop (env : Env) : Nat → Nat → RunResult NodeApiError Unit × List ScanEvent
  | _, 0 => (.outOfFuel, [])
  | i, fuel + 1 =>
    match env.heights i with
    | .error e => (.error e, [])
    | .ok (wh, bh) =>
      if wh = bh then (.ok (), [.pollHeights wh bh])
      else
        let r := waitLoop env (i + 1) fuel
        (r.1, .pollHeights wh bh :: .sleepSec 1 :: r.2)

/-- Model of `wait_for_node_rescan`: one initial height comparison that may
return immediately, then the unbounded polling loop. -/
def wait_for_node_rescan (env : Env) (fuel : Nat) :
    RunResult NodeApiError Unit × List ScanEvent :=
  match env.heights 0 with
  | .error e => (.error e, [])
  | .ok (wh, bh) =>
    if wh = bh then (.ok (), [.pollHeights wh bh])
    else
      let r := waitLoop env 1 fuel
      (r.1, .pollHeights wh bh :: r.2)

/-- Combine the rescan-wait outcome with the registry to return
(`wait_for_node_rescan(node_api)?; Ok(registry)`). -/
def liftWait (r : RunResult NodeApiError Unit) (reg : NodeScanRegistry) :
    RunResult NodeScanRegistryError NodeScanRegistry :=
  match r with
  | .ok _ => .ok reg
  | .error e => .error (.nodeApi e)
  | .outOfFuel => .outOfFuel

/-- Model of `NodeScanRegistry::ensure_node_registered_scans`: if the
scan-IDs file reads successfully, parse it (propagating a parse error);
otherwise register and persist fresh scans and rescan; either way block on
`wait_for_node_rescan` before returning the registry. -/
def ensure_node_registered_scans (env : Env) (fuel : Nat) :
    RunResult NodeScanRegistryError NodeScanRegistry × List ScanEvent :=
  match env.readFile with
  | .ok json_str =>
    match NodeScanRegistry.load_from_json_str json_str with
    | .error e => (.error e, [.readFile])
    | .ok registry =>
      let w := wait_for_node_rescan env fuel
      (liftWait w.1 registry, .readFile :: w.2)
  | .error _ =>
    match register_and_save_scans_inner env with
    | (.error e, tr) => (.error e, .readFile :: tr)
    | (.ok registry, tr) =>
      let w := wait_for_node_rescan env fuel
      (liftWait w.1 registry, .readFile :: (tr ++ w.2))

/-- The fixed list of node scans of a registry (`node_scans`): exactly the
oracle token scan. -/
def NodeScanRegistry.node_scans (r : NodeScanRegistry) : List GenericTokenScan :=
  [r.oracle_token_scan]

/-- The deregistration loop of `deregister_all_scans`: attempt each handle
in order, aborting at the first node error (the `?` in the source loop);
also returns the list of handles actually attempted. -/
def deregister_loop (f : ScanId → Except NodeApiError Unit) :
    List ScanId → Except NodeApiError Unit × List ScanId
  | [] => (.ok (), [])
  | sid :: rest =>
    match f sid with
    | .error e => (.error e, [sid])
    | .ok _ =>
      let r := deregister_loop f rest
      (r.1, sid :: r.2)

/-- Model of `NodeScanRegistry::deregister_all_scans`, with
`f` the node's `deregister_scan` call. -/
def NodeScanRegistry.deregister_all_scans (r : NodeScanRegistry)
    (f : ScanId → Except NodeApiError Unit) :
    Except NodeApiError Unit × List ScanId :=
  deregister_loop f (r.node_scans.map (fun s => s.scan_id))

/-- Modelled from the spec: the predefined remote datapoint source variant
(`PredefinedDataPointSource`, declared in the pool config outside the
embedded files); opaque here. -/
structure PredefinedDataPointSource where
  tag : Nat
deriving DecidableEq

/-- Modelled from the spec: an external shell-command datapoint source
(`ExternalScript`, declared outside the embedded files), carrying its
command string. -/
structure ExternalScript where
  cmd : String
deriving DecidableEq

/-- Constructor `ExternalScript::new`. -/
def ExternalScript.new (cmd : String) : ExternalScript := ⟨cmd⟩

/-- The runtime datapoint source (`enum RuntimeDataPointSource`). -/
inductive RuntimeDataPointSource where
  | predefined (p : PredefinedDataPointSource) : RuntimeDataPointSource
  | externalScript (s : ExternalScript) : RuntimeDataPointSource
deriving DecidableEq

/-- Model of `RuntimeDataPointSource::new` (`datapoint_source.rs`): a custom
shell command takes precedence; otherwise the predefined source is used;
with neither, construction fails. -/
def RuntimeDataPointSource.new (predef_datapoint_source : Option PredefinedDataPointSource)
    (custom_datapoint_source_shell_cmd : Option String) :
    Except String RuntimeDataPointSource :=
  match custom_datapoint_source_shell_cmd with
  | some external_script_name => .ok (.externalScript (ExternalScript.new external_script_name))
  | none =>
    match predef_datapoint_source with
    | some predef_datasource => .ok (.predefined predef_datasource)
    | none =>
      .error "pool config data_point_source is empty along with data_point_source_custom_script in the oracle config"

/-- A simulated unspent box: its ledger id and its nanoerg value. -/
structure SimBox where
  boxId : Nat
  value : Nat
deriving DecidableEq

/-- Modelled from the spec: the simulated chain of the bootstrap test
(`ergo_chain_sim::ChainSim`): a height, the unspent box set, and a fresh
box-id supply. -/
structure ChainSim where
  height : Nat
  unspent : List SimBox
  nextBoxId : Nat
deriving DecidableEq

/-- A fresh simulated chain at height 0. -/
def ChainSim.new : ChainSim := ⟨0, [], 0⟩

/-- Modelled from the spec: fund the wallet with one box, in the initial
funding block (the run observed by the spec starts at the height after this
one block). -/
def ChainSim.generate_unspent_box (c : ChainSim) (value : Nat) : ChainSim :=
  ⟨c.height + 1, c.unspent ++ [⟨c.nextBoxId, value⟩], c.nextBoxId + 1⟩

/-- One step of the chained bootstrap (spec section 4.3): the six token
mints in dependency order, then the contract-bound box creation. -/
inductive BootstrapStep where
  | mintPoolNft : BootstrapStep
  | mintRefreshNft : BootstrapStep
  | mintUpdateNft : BootstrapStep
  | mintOracleTokens : BootstrapStep
  | mintBallotTokens : BootstrapStep
  | mintRewardTokens : BootstrapStep
  | createPoolBox : BootstrapStep
deriving DecidableEq

/-- Modelled from the spec: the fixed topological order of bootstrap
transactions; its length is fixed by the observed end-to-end run (final
height 8 = starting height 1 after the funding block + 7 transactions). -/
def bootstrapSteps : List BootstrapStep :=
  [.mintPoolNft, .mintRefreshNft, .mintUpdateNft, .mintOracleTokens,
   .mintBallotTokens, .mintRewardTokens, .createPoolBox]

/-- Whether a bootstrap step mints a token. -/
def BootstrapStep.isMint : BootstrapStep → Bool
  | .createPoolBox => false
  | _ => true

/-- `BoxValue::SAFE_USER_MIN`, used by the test as both the transaction fee
and the per-box value. -/
def safeUserMin : Nat := 1000000

/-- The record output by a successful bootstrap (`FinalizedOracleConfig`):
the token ids minted during the run. -/
structure FinalizedOracleConfig where
  mintedTokenIds : List TokenId
deriving DecidableEq

/-- Intermediate orchestrator state: the chain, the previous step's output
box (next step's input), and the token ids minted so far. -/
structure BootstrapState where
  chain : ChainSim
  inputBox : SimBox
  minted : List TokenId
deriving DecidableEq

/-- Modelled from the spec: one chained bootstrap transaction.  It spends
the previous step's output box, pays the fee, submits one block (the test's
`ChainSubmitTx` adds a block per submitted transaction), and — for a minting
step — mints a token whose id equals the id of the first input box of the
minting transaction (the ledger invariant of spec section 3). -/
def execStep (st : BootstrapState) (step : BootstrapStep) :
    Except String BootstrapState :=
  if st.inputBox.value < safeUserMin + safeUserMin then .error "insufficient funds"
  else
    let newBox : SimBox := ⟨st.chain.nextBoxId, st.inputBox.value - safeUserMin⟩
    let chain2 : ChainSim :=
      ⟨st.chain.height + 1,
       (st.chain.unspent.filter (fun b => b.boxId != st.inputBox.boxId)) ++ [newBox],
       st.chain.nextBoxId + 1⟩
    let minted2 :=
      if step.isMint then st.minted ++ [⟨st.inputBox.boxId⟩] else st.minted
    .ok ⟨chain2, newBox, minted2⟩

/-- Modelled from the spec: `perform_bootstrap_chained_transaction` — submit
the bootstrap transactions in their fixed order, threading each step's
output box into the next step, and assemble the finalized configuration
from the minted token ids. -/
def perform_bootstrap_chained_transaction (chain : ChainSim) (fundingBox : SimBox) :
    Except String (FinalizedOracleConfig × ChainSim) :=
  match bootstrapSteps.foldlM execStep ⟨chain, fundingBox, []⟩ with
  | .error e => .error e
  | .ok st => .ok (⟨st.minted⟩, st.chain)

/-- The end-to-end scenario of `tests/bootstrap_and_run.rs`: a fresh chain,
one funded wallet box of 100,000,000 nanoerg, then the chained bootstrap. -/
def test_bootstrap_and_run : Except String (FinalizedOracleConfig × ChainSim) :=
  let chain0 := ChainSim.new.generate_unspent_box 100000000
  match chain0.unspent with
  | [b] => perform_bootstrap_chained_transaction chain0 b
  | _ => .error "no funding box"

/-- Concrete oracle contract parameters: a template whose slot 1 is a token
id constant, expecting pool NFT 9. -/
def opW : OracleContractParameters :=
  ⟨⟨.ok (.parsed [.other 3, .tokenId ⟨0⟩])⟩, 1, ⟨9⟩⟩

/-- The oracle contract `create opW` produces. -/
def ocW : OracleContract := ⟨.parsed [.other 3, .tokenId ⟨9⟩], 1⟩

/-- A deployed oracle script carrying the wrong pool NFT at slot 1. -/
def oracleBadTree : ErgoTree := .parsed [.other 3, .tokenId ⟨8⟩]

/-- Concrete pool contract parameters: refresh NFT 11 at slot 0 and update
NFT 12 at slot 2. -/
def ppW : PoolContractParameters :=
  ⟨⟨.ok (.parsed [.tokenId ⟨0⟩, .other 5, .tokenId ⟨0⟩])⟩, 0, ⟨11⟩, 2, ⟨12⟩⟩

/-- The pool contract `create ppW` produces. -/
def pcW : PoolContract := ⟨.parsed [.tokenId ⟨11⟩, .other 5, .tokenId ⟨12⟩], 0, 2⟩

/-- A deployed pool script carrying the wrong refresh NFT. -/
def poolBadRefreshTree : ErgoTree := .parsed [.tokenId ⟨13⟩, .other 5, .tokenId ⟨12⟩]

/-- A deployed pool script with the right refresh NFT but the wrong update
NFT. -/
def poolBadUpdateTree : ErgoTree := .parsed [.tokenId ⟨11⟩, .other 5, .tokenId ⟨13⟩]

/-- Collaborator responses with a readable, well-formed scan-IDs file and a
node already caught up at height 5. -/
def envA : Env :=
  ⟨.ok (NodeScanRegistry.save_to_json_str ⟨⟨⟨185⟩⟩⟩), .ok ⟨7⟩, fun _ => .ok (),
   .ok (), fun _ => .ok (5, 5), ⟨42⟩⟩

/-- Collaborator responses with the scan-IDs file unreadable and every node
call succeeding. -/
def envB : Env := envA.withReadError "scanIDs.json missing"

/-- Collaborator responses with the scan-IDs file unreadable and scan
registration failing at the node. -/
def envC : Env :=
  ⟨.error "permission denied", .error (.scanFailed "node rejected scan"),
   fun _ => .ok (), .ok (), fun _ => .ok (5, 5), ⟨42⟩⟩

/-- Collaborator responses with a readable but malformed scan-IDs file. -/
def envD : Env :=
  ⟨.ok "not json", .ok ⟨7⟩, fun _ => .ok (), .ok (), fun _ => .ok (5, 5), ⟨42⟩⟩

/-- Collaborator responses whose wallet height never reaches the chain
height. -/
def envE : Env :=
  ⟨.ok (NodeScanRegistry.save_to_json_str ⟨⟨⟨185⟩⟩⟩), .ok ⟨7⟩, fun _ => .ok (),
   .ok (), fun _ => .ok (3, 5), ⟨42⟩⟩

/-! ## Theorems -/

/-- A successful `get_constant` means the tree is parsed and the slot lookup
is the returned option. -/
theorem get_constant_ok_elim {tree : ErgoTree} {i : Nat} {x : Option Constant}
    (h : tree.get_constant i = .ok x) : ∃ cs, tree = .parsed cs ∧ cs[i]? = x := by
  cases tree with
  | parsed cs => exact ⟨cs, rfl, by simpa [ErgoTree.get_constant] using h⟩
  | unparsed => simp [ErgoTree.get_constant] at h

/-- Structure of a successful `OracleContract::from_ergo_tree`: the tree is
parsed and its declared slot holds exactly the expected pool NFT id. -/
theorem oracle_fet_ok_elim {tree : ErgoTree} {p : OracleContractParameters}
    {c : OracleContract} (h : OracleContract.from_ergo_tree tree p = .ok c) :
    ∃ cs, tree = .parsed cs ∧
      cs[p.pool_nft_index]? = some (.tokenId p.pool_nft_token_id) ∧
      c = ⟨tree, p.pool_nft_index⟩ := by
  unfold OracleContract.from_ergo_tree at h
  split at h
  · simp at h
  · split at h
    · simp at h
    · simp at h
    · rename_i hgc k hk
      split at h
      · simp at h
      · rename_i t ht
        split at h
        · rename_i heq
          obtain ⟨cs, rfl, hcs⟩ := get_constant_ok_elim hk
          cases k with
          | other tp => simp [Constant.try_extract_token_id] at ht
          | tokenId t2 =>
            refine ⟨cs, rfl, ?_, ?_⟩
            · cases ht; rw [hcs, heq]
            · cases h; rfl
        · simp at h

/-- A parsed tree whose declared slot holds the expected pool NFT id is
accepted by `OracleContract::from_ergo_tree`. -/
theorem oracle_fet_ok_intro {cs : List Constant} {p : OracleContractParameters}
    (h : cs[p.pool_nft_index]? = some (.tokenId p.pool_nft_token_id)) :
    OracleContract.from_ergo_tree (.parsed cs) p =
      .ok ⟨.parsed cs, p.pool_nft_index⟩ := by
  unfold OracleContract.from_ergo_tree
  simp [ErgoTree.get_constants, ErgoTree.get_constant, h, Constant.try_extract_token_id]

/-- The oracle accessor reads back whatever token id sits at its slot. -/
theorem oracle_accessor_of_slot {cs : List Constant} {i j : Nat} {t : TokenId}
    (h : cs[i]? = some (.tokenId t)) (hj : j = i) :
    OracleContract.pool_nft_token_id ⟨.parsed cs, j⟩ = some t := by
  subst hj
  unfold OracleContract.pool_nft_token_id
  simp [ErgoTree.get_constant, h, Constant.try_extract_token_id]

/-- A parsed tree whose declared slot holds a wrong token id is rejected
with `UnknownPoolNftId`. -/
theorem oracle_fet_mismatch {cs : List Constant} {p : OracleContractParameters}
    {t : TokenId} (h : cs[p.pool_nft_index]? = some (.tokenId t))
    (hne : t ≠ p.pool_nft_token_id) :
    OracleContract.from_ergo_tree (.parsed cs) p = .error .unknownPoolNftId := by
  unfold OracleContract.from_ergo_tree
  simp [ErgoTree.get_constants, ErgoTree.get_constant, h,
    Constant.try_extract_token_id, hne]

/-- Structure of a successful `PoolContract::from_ergo_tree`: the tree is
parsed and both declared slots hold exactly the expected NFT ids. -/
theorem pool_fet_ok_elim {tree : ErgoTree} {p : PoolContractParameters}
    {c : PoolContract} (h : PoolContract.from_ergo_tree tree p = .ok c) :
    ∃ cs, tree = .parsed cs ∧
      cs[p.refresh_nft_index]? = some (.tokenId p.refresh_nft_token_id) ∧
      cs[p.update_nft_index]? = some (.tokenId p.update_nft_token_id) ∧
      c = ⟨tree, p.refresh_nft_index, p.update_nft_index⟩ := by
  unfold PoolContract.from_ergo_tree at h
  split at h
  · simp at h
  · split at h
    · simp at h
    · simp at h
    · rename_i hgc k hk
      split at h
      · simp at h
      · rename_i rt hrt
        split at h
        · rename_i hreq
          split at h
          · simp at h
          · simp at h
          · rename_i k2 hk2
            split at h
            · simp at h
            · rename_i ut hut
              split at h
              · rename_i hueq
                obtain ⟨cs, rfl, hcs⟩ := get_constant_ok_elim hk
                obtain ⟨cs2, heq2, hcs2⟩ := get_constant_ok_elim hk2
                cases heq2
                cases k with
                | other tp => simp [Constant.try_extract_token_id] at hrt
                | tokenId rt2 =>
                  cases k2 with
                  | other tp => simp [Constant.try_extract_token_id] at hut
                  | tokenId ut2 =>
                    refine ⟨cs, rfl, ?_, ?_, ?_⟩
                    · cases hrt; rw [hcs, hreq]
                    · cases hut; rw [hcs2, hueq]
                    · cases h; rfl
              · simp at h
        · simp at h

/-- A parsed tree whose declared slots hold the expected refresh and update
NFT ids is accepted by `PoolContract::from_ergo_tree`. -/
theorem pool_fet_ok_intro {cs : List Constant} {p : PoolContractParameters}
    (h1 : cs[p.refresh_nft_index]? = some (.tokenId p.refresh_nft_token_id))
    (h2 : cs[p.update_nft_index]? = some (.tokenId p.update_nft_token_id)) :
    PoolContract.from_ergo_tree (.parsed cs) p =
      .ok ⟨.parsed cs, p.refresh_nft_index, p.update_nft_index⟩ := by
  unfold PoolContract.from_ergo_tree
  simp [ErgoTree.get_constants, ErgoTree.get_constant, h1, h2,
    Constant.try_extract_token_id]

/-- The pool refresh accessor reads back whatever token id sits at its
slot. -/
theorem pool_refresh_accessor_of_slot {cs : List Constant} {i j u : Nat}
    {t : TokenId} (h : cs[i]? = some (.tokenId t)) (hj : j = i) :
    PoolContract.refresh_nft_token_id ⟨.parsed cs, j, u⟩ = some t := by
  subst hj
  unfold PoolContract.refresh_nft_token_id
  simp [ErgoTree.get_constant, h, Constant.try_extract_token_id]

/-- The pool update accessor reads back whatever token id sits at its
slot. -/
theorem pool_update_accessor_of_slot {cs : List Constant} {i j r : Nat}
    {t : TokenId} (h : cs[i]? = some (.tokenId t)) (hj : j = i) :
    PoolContract.update_nft_token_id ⟨.parsed cs, r, j⟩ = some t := by
  subst hj
  unfold PoolContract.update_nft_token_id
  simp [ErgoTree.get_constant, h, Constant.try_extract_token_id]

/-- A parsed tree with a wrong refresh NFT id at its slot is rejected with
`UnknownRefreshNftId`. -/
theorem pool_fet_refresh_mismatch {cs : List Constant} {p : PoolContractParameters}
    {t : TokenId} (h : cs[p.refresh_nft_index]? = some (.tokenId t))
    (hne : t ≠ p.refresh_nft_token_id) :
    PoolContract.from_ergo_tree (.parsed cs) p = .error .unknownRefreshNftId := by
  unfold PoolContract.from_ergo_tree
  simp [ErgoTree.get_constants, ErgoTree.get_constant, h,
    Constant.try_extract_token_id, hne]

/-- A parsed tree with the right refresh NFT id but a wrong update NFT id is
rejected with `UnknownUpdateNftId`. -/
theorem pool_fet_update_mismatch {cs : List Constant} {p : PoolContractParameters}
    {t : TokenId} (h1 : cs[p.refresh_nft_index]? = some (.tokenId p.refresh_nft_token_id))
    (h2 : cs[p.update_nft_index]? = some (.tokenId t))
    (hne : t ≠ p.update_nft_token_id) :
    PoolContract.from_ergo_tree (.parsed cs) p = .error .unknownUpdateNftId := by
  unfold PoolContract.from_ergo_tree
  simp [ErgoTree.get_constants, ErgoTree.get_constant, h1, h2,
    Constant.try_extract_token_id, hne]

/-- C1 (verifier soundness): whenever `create` succeeds for oracle or pool
contract parameters, re-verifying the resulting script with
`from_ergo_tree` under the same parameters succeeds with the same contract
and each identity accessor returns exactly the expected token id; and any
script whose constant at a declared slot is a token id different from the
expected one is rejected by `from_ergo_tree` with the corresponding
identity-mismatch error (`UnknownPoolNftId`, `UnknownRefreshNftId`,
`UnknownUpdateNftId`), never yielding a contract. -/
theorem verifier_soundness :
    (∀ (p : OracleContractParameters) (c : OracleContract),
        OracleContract.create p = .ok c →
          OracleContract.from_ergo_tree c.ergo_tree p = .ok c ∧
          c.pool_nft_token_id = some p.pool_nft_token_id) ∧
    (∀ (p : OracleContractParameters) (tree : ErgoTree) (t : TokenId),
        tree.get_constant p.pool_nft_index = .ok (some (.tokenId t)) →
        t ≠ p.pool_nft_token_id →
          OracleContract.from_ergo_tree tree p = .error .unknownPoolNftId) ∧
    (∀ (p : PoolContractParameters) (c : PoolContract),
        PoolContract.create p = .ok c →
          PoolContract.from_ergo_tree c.ergo_tree p = .ok c ∧
          c.refresh_nft_token_id = some p.refresh_nft_token_id ∧
          c.update_nft_token_id = some p.update_nft_token_id) ∧
    (∀ (p : PoolContractParameters) (tree : ErgoTree) (t : TokenId),
        tree.get_constant p.refresh_nft_index = .ok (some (.tokenId t)) →
        t ≠ p.refresh_nft_token_id →
          PoolContract.from_ergo_tree tree p = .error .unknownRefreshNftId) ∧
    (∀ (p : PoolContractParameters) (tree : ErgoTree) (t : TokenId),
        tree.get_constant p.refresh_nft_index = .ok (some (.tokenId p.refresh_nft_token_id)) →
        tree.get_constant p.update_nft_index = .ok (some (.tokenId t)) →
        t ≠ p.update_nft_token_id →
          PoolContract.from_ergo_tree tree p = .error .unknownUpdateNftId) := by
  refine ⟨?_, ?_, ?_, ?_, ?_⟩
  · intro p c h
    unfold OracleContract.create at h
    split at h
    · simp at h
    · rename_i tree hscript
      split at h
      · simp at h
      · obtain ⟨cs, rfl, hslot, rfl⟩ := oracle_fet_ok_elim h
        exact ⟨oracle_fet_ok_intro hslot, oracle_accessor_of_slot hslot rfl⟩
  · intro p tree t hslot hne
    obtain ⟨cs, rfl, hcs⟩ := get_constant_ok_elim hslot
    exact oracle_fet_mismatch hcs hne
  · intro p c h
    unfold PoolContract.create at h
    split at h
    · simp at h
    · rename_i tree hscript
      split at h
      · simp at h
      · rename_i tree2 hwc
        split at h
        · simp at h
        · obtain ⟨cs, rfl, hs1, hs2, rfl⟩ := pool_fet_ok_elim h
          exact ⟨pool_fet_ok_intro hs1 hs2,
            pool_refresh_accessor_of_slot hs1 rfl,
            pool_update_accessor_of_slot hs2 rfl⟩
  · intro p tree t hslot hne
    obtain ⟨cs, rfl, hcs⟩ := get_constant_ok_elim hslot
    exact pool_fet_refresh_mismatch hcs hne
  · intro p tree t hs1 hs2 hne
    obtain ⟨cs, rfl, hcs1⟩ := get_constant_ok_elim hs1
    obtain ⟨cs2, heq, hcs2⟩ := get_constant_ok_elim hs2
    cases heq
    exact pool_fet_update_mismatch hcs1 hcs2 hne

/-- Witness for C1: the soundness theorem applied at the concrete oracle and
pool parameters `opW` / `ppW`, their created contracts, and concrete
wrong-id scripts. -/
theorem verifier_soundness_witness :
    (OracleContract.from_ergo_tree ocW.ergo_tree opW = .ok ocW ∧
      ocW.pool_nft_token_id = some opW.pool_nft_token_id) ∧
    OracleContract.from_ergo_tree oracleBadTree opW = .error .unknownPoolNftId ∧
    (PoolContract.from_ergo_tree pcW.ergo_tree ppW = .ok pcW ∧
      pcW.refresh_nft_token_id = some ppW.refresh_nft_token_id ∧
      pcW.update_nft_token_id = some ppW.update_nft_token_id) ∧
    PoolContract.from_ergo_tree poolBadRefreshTree ppW = .error .unknownRefreshNftId ∧
    PoolContract.from_ergo_tree poolBadUpdateTree ppW = .error .unknownUpdateNftId :=
  ⟨verifier_soundness.1 opW ocW (by decide),
   verifier_soundness.2.1 opW oracleBadTree ⟨8⟩ (by decide) (by decide),
   verifier_soundness.2.2.1 ppW pcW (by decide),
   verifier_soundness.2.2.2.1 ppW poolBadRefreshTree ⟨13⟩ (by decide) (by decide),
   verifier_soundness.2.2.2.2 ppW poolBadUpdateTree ⟨13⟩ (by decide) (by decide) (by decide)⟩

/-- C2 (code bug): the claim says loading a script lacking a declared
constant slot fails with the shape error and never panics, but the
`dbg!(ergo_tree.get_constants().unwrap())` at the top of both
`from_ergo_tree` functions panics on any script whose constants cannot be
obtained (an unparsed tree) — reached before the `map_err` that was meant
to turn exactly that failure into `NoPoolNftId` / `NoRefreshNftId`.  This
theorem evaluates both loaders at such a script. -/
theorem load_panics_on_unparsed_script :
    OracleContract.load ⟨⟨.ok .unparsed⟩, 0, ⟨0⟩⟩ = .panic ∧
    PoolContract.load ⟨⟨.ok .unparsed⟩, 0, ⟨0⟩, 1, ⟨1⟩⟩ = .panic :=
  ⟨rfl, rfl⟩

/-- A safe JSON string contains no quote character. -/
theorem noQuote_of_jsonSafe {s : String} (h : jsonSafeStr s = true) :
    ∀ c ∈ s.data, c ≠ '"' := by
  intro c hc
  have hx := (List.all_eq_true.mp h) c hc
  simp only [Bool.and_eq_true, bne_iff_ne, ne_eq] at hx
  exact hx.1.1

/-- `digitVal` inverts `digitChar` on decimal digits. -/
theorem digitVal_digitChar {d : Nat} (h : d < 10) :
    digitVal (digitChar d) = some d := by
  interval_cases d <;> decide

/-- `digitsVals` inverts `List.map digitChar` on digit lists. -/
theorem digitsVals_map_digitChar {ds : List Nat} (h : ∀ d ∈ ds, d < 10) :
    digitsVals (ds.map digitChar) = some ds := by
  induction ds with
  | nil => rfl
  | cons d ds ih =>
    simp only [List.map_cons, digitsVals]
    rw [digitVal_digitChar (h d (by simp)), ih (fun x hx => h x (by simp [hx]))]

/-- The fuelled renderer agrees with the little-endian `Nat.digits`
rendering whenever the fuel covers the number. -/
theorem natToCharsAux_eq (fuel : Nat) :
    ∀ n, n ≤ fuel → natToCharsAux fuel n = ((Nat.digits 10 n).map digitChar).reverse := by
  induction fuel with
  | zero =>
    intro n hn
    interval_cases n
    simp [natToCharsAux]
  | succ fuel ih =>
    intro n hn
    by_cases h0 : n = 0
    · subst h0
      simp [natToCharsAux]
    · unfold natToCharsAux
      rw [if_neg h0]
      rw [ih (n / 10)
        (by have := Nat.div_lt_self (Nat.pos_of_ne_zero h0) (by norm_num : 1 < 10); omega)]
      rw [Nat.digits_def' (by norm_num : 1 < 10) (Nat.pos_of_ne_zero h0)]
      simp

/-- `natToChars` renders the decimal digits of its input. -/
theorem natToChars_eq (n : Nat) :
    natToChars n = ((Nat.digits 10 n).map digitChar).reverse :=
  natToCharsAux_eq n n le_rfl

/-- The decimal rendering of a positive number is nonempty. -/
theorem natToChars_ne_nil {n : Nat} (h : n ≠ 0) : natToChars n ≠ [] := by
  rw [natToChars_eq]
  simp [Nat.digits_ne_nil_iff_ne_zero, h]

/-- Decimal parsing inverts decimal printing on every `Nat` (the handle
round-trip of the serialized scan id). -/
theorem parseNat_natToString (n : Nat) :
    parseNatChars (natToString n).data = some n := by
  by_cases h : n = 0
  · subst h; decide
  · unfold natToString
    rw [if_neg h]
    show parseNatChars (natToChars n) = some n
    have h1 : digitsVals (natToChars n).reverse = some (Nat.digits 10 n) := by
      rw [natToChars_eq]
      rw [List.reverse_reverse]
      exact digitsVals_map_digitChar (fun d hd => Nat.digits_lt_base (by norm_num) hd)
    unfold parseNatChars
    rw [if_neg (natToChars_ne_nil h), h1]
    simp [Nat.ofDigits_digits]

/-- Decimal renderings contain no quote character. -/
theorem natToString_noQuote (n : Nat) : ∀ c ∈ (natToString n).data, c ≠ '"' := by
  by_cases h : n = 0
  · subst h; decide
  · unfold natToString
    rw [if_neg h]
    show ∀ c ∈ natToChars n, c ≠ '"'
    intro c hc
    rw [natToChars_eq] at hc
    rw [List.mem_reverse] at hc
    obtain ⟨d, hd, rfl⟩ := List.mem_map.mp hc
    have hd10 : d < 10 := Nat.digits_lt_base (by norm_num) hd
    interval_cases d <;> decide

/-- A quote-free prefix followed by a quote parses as a string literal. -/
theorem parseStringLit_append {s : List Char} (h : ∀ c ∈ s, c ≠ '"') (r : List Char) :
    parseStringLit (s ++ '"' :: r) = some (s, r) := by
  induction s with
  | nil => simp [parseStringLit]
  | cons c cs ih =>
    simp only [List.cons_append, parseStringLit, List.append_eq]
    rw [if_neg (h c (by simp))]
    simp [ih (fun x hx => h x (by simp [hx]))]

/-- `skipWs` drops a leading whitespace character. -/
theorem skipWs_cons_ws {c : Char} (h : isWsChar c = true) (l : List Char) :
    skipWs (c :: l) = skipWs l := by simp [skipWs, h]

/-- `skipWs` keeps a leading non-whitespace character. -/
theorem skipWs_cons_not_ws {c : Char} (h : isWsChar c = false) (l : List Char) :
    skipWs (c :: l) = c :: l := by simp [skipWs, h]

/-- A field list is no longer than its printed form. -/
theorem length_le_fieldsTail (fields : List (String × String)) :
    fields.length ≤ (fieldsTail fields).length := by
  induction fields with
  | nil => simp [fieldsTail]
  | cons kv rest ih =>
    cases rest with
    | nil => simp [fieldsTail, fieldChars]
    | cons kv2 rest2 =>
      simp only [fieldsTail, fieldChars, List.length_append, List.length_cons] at ih ⊢
      omega

/-- The field parser inverts the field printer on quote-free fields, given
enough fuel. -/
theorem parseFieldsAux_fieldsTail :
    ∀ (fields : List (String × String)) (fuel : Nat),
      fields ≠ [] → fields.length ≤ fuel →
      (∀ kv ∈ fields, (∀ c ∈ kv.1.data, c ≠ '"') ∧ (∀ c ∈ kv.2.data, c ≠ '"')) →
      parseFieldsAux fuel ('\n' :: fieldsTail fields) = some (fields, []) := by
  intro fields
  induction fields with
  | nil => intro fuel hne; exact absurd rfl hne
  | cons kv rest ih =>
    intro fuel _ hfuel hsafe
    obtain ⟨fuel, rfl⟩ : ∃ m, fuel = m + 1 :=
      ⟨fuel - 1, by simp only [List.length_cons] at hfuel; omega⟩
    have hk := (hsafe kv (by simp)).1
    have hv := (hsafe kv (by simp)).2
    cases rest with
    | nil =>
      simp only [fieldsTail, fieldChars, List.cons_append, List.append_assoc,
        List.singleton_append, List.nil_append]
      simp only [parseFieldsAux,
        skipWs_cons_ws (show isWsChar '\n' = true from by decide),
        skipWs_cons_ws (show isWsChar ' ' = true from by decide),
        skipWs_cons_not_ws (show isWsChar '"' = false from by decide),
        parseStringLit_append hk, parseStringLit_append hv,
        skipWs_cons_not_ws (show isWsChar ':' = false from by decide),
        skipWs_cons_not_ws (show isWsChar '}' = false from by decide)]
    | cons kv2 rest2 =>
      have ihx := ih fuel (by simp)
        (by simp only [List.length_cons] at hfuel ⊢; omega)
        (fun x hx => hsafe x (by simp [hx]))
      simp only [fieldsTail, fieldChars, List.cons_append, List.append_assoc,
        List.singleton_append, List.nil_append]
      simp only [parseFieldsAux,
        skipWs_cons_ws (show isWsChar '\n' = true from by decide),
        skipWs_cons_ws (show isWsChar ' ' = true from by decide),
        skipWs_cons_not_ws (show isWsChar '"' = false from by decide),
        parseStringLit_append hk, parseStringLit_append hv,
        skipWs_cons_not_ws (show isWsChar ':' = false from by decide),
        skipWs_cons_not_ws (show isWsChar ',' = false from by decide)]
      rw [ihx]

/-- The printed form of any nonempty field list starts, after the brace,
with the indent and opening quote of the first field. -/
theorem fieldsTail_shape (kv : String × String) (rest : List (String × String)) :
    ∃ X, fieldsTail (kv :: rest) = ' ' :: ' ' :: '"' :: X := by
  cases rest with
  | nil =>
    refine ⟨kv.1.data ++ '"' :: ':' :: ' ' :: '"' :: (kv.2.data ++ ['"', '\n', '}']), ?_⟩
    simp [fieldsTail, fieldChars]
  | cons kv2 rest2 =>
    refine ⟨kv.1.data ++ '"' :: ':' :: ' ' :: '"' ::
      (kv.2.data ++ '"' :: ',' :: '\n' :: fieldsTail (kv2 :: rest2)), ?_⟩
    simp [fieldsTail, fieldChars]

/-- The object parser inverts the object printer on quote-free fields. -/
theorem parseObj_printObj {fields : List (String × String)}
    (hsafe : ∀ kv ∈ fields, (∀ c ∈ kv.1.data, c ≠ '"') ∧ (∀ c ∈ kv.2.data, c ≠ '"')) :
    parseObj (printObj fields) = some fields := by
  cases fields with
  | nil => rfl
  | cons kv rest =>
    obtain ⟨X, hX⟩ := fieldsTail_shape kv rest
    have hparse := parseFieldsAux_fieldsTail (kv :: rest)
      (('\n' :: fieldsTail (kv :: rest)).length + 1) (by simp)
      (by have := length_le_fieldsTail (kv :: rest)
          simp only [List.length_cons] at this ⊢
          omega)
      hsafe
    show parseObj ('{' :: '\n' :: fieldsTail (kv :: rest)) = _
    unfold parseObj
    rw [skipWs_cons_not_ws (show isWsChar '{' = false from by decide)]
    rw [hX]
    simp only [skipWs_cons_ws (show isWsChar '\n' = true from by decide),
      skipWs_cons_ws (show isWsChar ' ' = true from by decide),
      skipWs_cons_not_ws (show isWsChar '"' = false from by decide)]
    rw [hX] at hparse
    simp only [List.length_cons] at hparse
    simp [hparse, skipWs]

/-- C5 (persistence round-trip): serializing any scan registry with
`save_to_json_str` and reparsing the result with `load_from_json_str`
succeeds and returns the identical registry, for every scan handle. -/
theorem scan_registry_roundtrip (r : NodeScanRegistry) :
    NodeScanRegistry.load_from_json_str r.save_to_json_str = .ok r := by
  obtain ⟨⟨⟨n⟩⟩⟩ := r
  have hsafe : ∀ kv ∈ [(scanKey, natToString n)],
      (∀ c ∈ (kv.1 : String).data, c ≠ '"') ∧ (∀ c ∈ (kv.2 : String).data, c ≠ '"') := by
    intro kv hkv
    simp only [List.mem_singleton] at hkv
    subst hkv
    refine ⟨?_, ?_⟩
    · show ∀ c ∈ scanKey.data, c ≠ '"'
      decide
    · show ∀ c ∈ (natToString n).data, c ≠ '"'
      exact natToString_noQuote n
  show NodeScanRegistry.load_from_json_str ⟨printObj [(scanKey, natToString n)]⟩ = _
  unfold NodeScanRegistry.load_from_json_str
  rw [show (⟨printObj [(scanKey, natToString n)]⟩ : String).data
      = printObj [(scanKey, natToString n)] from rfl]
  rw [parseObj_printObj hsafe]
  simp [List.filter, parseNat_natToString n]

/-- C6 (legacy tolerance): loading a persisted mapping that binds the
recognized role `All Datapoints Scan` to a handle together with any
unrecognized legacy role entries succeeds, ignoring the extra entries and
returning exactly the recognized role's handle. -/
theorem legacy_tolerance (sid : Nat) (pre post : List (String × String))
    (hpre : ∀ kv ∈ pre, kv.1 ≠ scanKey ∧ jsonSafeStr kv.1 = true ∧ jsonSafeStr kv.2 = true)
    (hpost : ∀ kv ∈ post, kv.1 ≠ scanKey ∧ jsonSafeStr kv.1 = true ∧ jsonSafeStr kv.2 = true) :
    NodeScanRegistry.load_from_json_str
      ⟨printObj (pre ++ (scanKey, natToString sid) :: post)⟩ = .ok ⟨⟨⟨sid⟩⟩⟩ := by
  have hsafe : ∀ kv ∈ pre ++ (scanKey, natToString sid) :: post,
      (∀ c ∈ (kv.1 : String).data, c ≠ '"') ∧ (∀ c ∈ (kv.2 : String).data, c ≠ '"') := by
    intro kv hkv
    rcases List.mem_append.mp hkv with hmem | hmem
    · obtain ⟨_, h1, h2⟩ := hpre kv hmem
      exact ⟨noQuote_of_jsonSafe h1, noQuote_of_jsonSafe h2⟩
    · rcases List.mem_cons.mp hmem with rfl | hmem2
      · refine ⟨?_, ?_⟩
        · show ∀ c ∈ scanKey.data, c ≠ '"'
          decide
        · show ∀ c ∈ (natToString sid).data, c ≠ '"'
          exact natToString_noQuote sid
      · obtain ⟨_, h1, h2⟩ := hpost kv hmem2
        exact ⟨noQuote_of_jsonSafe h1, noQuote_of_jsonSafe h2⟩
  have hfilter : (pre ++ (scanKey, natToString sid) :: post).filter
      (fun kv => kv.1 == scanKey) = [(scanKey, natToString sid)] := by
    rw [List.filter_append]
    have hpre0 : pre.filter (fun kv => kv.1 == scanKey) = [] := by
      rw [List.filter_eq_nil_iff]
      intro kv hkv
      simp [(hpre kv hkv).1]
    have hpost0 : post.filter (fun kv => kv.1 == scanKey) = [] := by
      rw [List.filter_eq_nil_iff]
      intro kv hkv
      simp [(hpost kv hkv).1]
    rw [hpre0]
    simp [List.filter_cons, hpost0]
  unfold NodeScanRegistry.load_from_json_str
  rw [show (⟨printObj (pre ++ (scanKey, natToString sid) :: post)⟩ : String).data
      = printObj (pre ++ (scanKey, natToString sid) :: post) from rfl]
  rw [parseObj_printObj hsafe]
  simp [hfilter, parseNat_natToString sid]

/-- Witness for C6: the legacy-tolerance theorem applied to the repository's
own seven-role legacy scan file (handle 185 for the recognized role, six
unrecognized legacy roles). -/
theorem legacy_tolerance_witness :
    NodeScanRegistry.load_from_json_str
      ⟨printObj [(scanKey, natToString 185),
        ("Update Box Scan", "186"), ("Pool Box Scan", "187"),
        ("Refresh Box Scan", "188"), ("Local Oracle Datapoint Scan", "189"),
        ("Local Ballot Box Scan", "190"), ("Ballot Box Scan", "191")]⟩ =
      .ok ⟨⟨⟨185⟩⟩⟩ :=
  legacy_tolerance 185 []
    [("Update Box Scan", "186"), ("Pool Box Scan", "187"),
     ("Refresh Box Scan", "188"), ("Local Oracle Datapoint Scan", "189"),
     ("Local Ballot Box Scan", "190"), ("Ballot Box Scan", "191")]
    (by intro kv h; exact absurd h (List.not_mem_nil kv))
    (by decide)

/-- Events of the polling loop are never scan registrations, file writes or
rescan requests. -/
theorem waitLoop_events_not_mutating (env : Env) :
    ∀ (fuel i : Nat), ∀ ev ∈ (waitLoop env i fuel).2, isMutatingEvent ev = false := by
  intro fuel
  induction fuel with
  | zero =>
    intro i ev hev
    simp [waitLoop] at hev
  | succ fuel ih =>
    intro i ev hev
    unfold waitLoop at hev
    cases hh : env.heights i with
    | error e =>
      rw [hh] at hev
      simp at hev
    | ok p =>
      obtain ⟨wh, bh⟩ := p
      rw [hh] at hev
      by_cases hwb : wh = bh
      · simp [hwb] at hev
        subst hev
        rfl
      · simp [hwb] at hev
        rcases hev with rfl | rfl | hev
        · rfl
        · rfl
        · exact ih (i + 1) ev hev

/-- Events of `wait_for_node_rescan` are never scan registrations, file
writes or rescan requests. -/
theorem wait_events_not_mutating (env : Env) (fuel : Nat) :
    ∀ ev ∈ (wait_for_node_rescan env fuel).2, isMutatingEvent ev = false := by
  intro ev hev
  unfold wait_for_node_rescan at hev
  cases hh : env.heights 0 with
  | error e =>
    rw [hh] at hev
    simp at hev
  | ok p =>
    obtain ⟨wh, bh⟩ := p
    rw [hh] at hev
    by_cases hwb : wh = bh
    · simp [hwb] at hev
      subst hev
      rfl
    · simp [hwb] at hev
      rcases hev with rfl | hev
      · rfl
      · exact waitLoop_events_not_mutating env fuel 1 ev hev

/-- C3 (two-path registration): when the scan-IDs file reads and parses, the
parsed registry is returned behind the rescan wait and no scan
registration, file write or rescan request happens; when the file cannot be
read, a scan is registered, the new mapping is written to the file, a
rescan from height 0 is requested — in that order — and the fresh registry
is returned behind the rescan wait. -/
theorem ensure_two_path (env : Env) (fuel : Nat) :
    (∀ s reg, env.readFile = .ok s →
        NodeScanRegistry.load_from_json_str s = .ok reg →
        ensure_node_registered_scans env fuel =
          (liftWait (wait_for_node_rescan env fuel).1 reg,
           .readFile :: (wait_for_node_rescan env fuel).2) ∧
        ∀ ev ∈ (ensure_node_registered_scans env fuel).2, isMutatingEvent ev = false) ∧
    (∀ m sid, env.readFile = .error m → env.registerScan = .ok sid →
        env.writeFile (NodeScanRegistry.save_to_json_str ⟨⟨sid⟩⟩) = .ok () →
        env.rescan = .ok () →
        ensure_node_registered_scans env fuel =
          (liftWait (wait_for_node_rescan env fuel).1 ⟨⟨sid⟩⟩,
           .readFile :: .registerScan env.oracleTokenId ::
           .writeFile (NodeScanRegistry.save_to_json_str ⟨⟨sid⟩⟩) ::
           .rescanFromHeight 0 :: (wait_for_node_rescan env fuel).2)) := by
  constructor
  · intro s reg hread hload
    have hmain : ensure_node_registered_scans env fuel =
        (liftWait (wait_for_node_rescan env fuel).1 reg,
         .readFile :: (wait_for_node_rescan env fuel).2) := by
      unfold ensure_node_registered_scans
      rw [hread]
      simp [hload]
    refine ⟨hmain, ?_⟩
    rw [hmain]
    intro ev hev
    rcases List.mem_cons.mp hev with rfl | hev
    · rfl
    · exact wait_events_not_mutating env fuel ev hev
  · intro m sid hread hreg hwrite hrescan
    unfold ensure_node_registered_scans register_and_save_scans_inner
    rw [hread]
    simp [hreg, hwrite, hrescan]

/-- Witness for C3: both paths of the two-path theorem at concrete
collaborator responses. -/
theorem ensure_two_path_witness :
    ensure_node_registered_scans envA 1 =
      (.ok ⟨⟨⟨185⟩⟩⟩, [.readFile, .pollHeights 5 5]) ∧
    ensure_node_registered_scans envB 1 =
      (.ok ⟨⟨⟨7⟩⟩⟩,
       [.readFile, .registerScan ⟨42⟩,
        .writeFile (NodeScanRegistry.save_to_json_str ⟨⟨⟨7⟩⟩⟩),
        .rescanFromHeight 0, .pollHeights 5 5]) := by
  constructor
  · exact (((ensure_two_path envA 1).1 (NodeScanRegistry.save_to_json_str ⟨⟨⟨185⟩⟩⟩)
      ⟨⟨⟨185⟩⟩⟩ rfl (by decide)).1).trans (by decide)
  · exact ((ensure_two_path envB 1).2 "scanIDs.json missing" ⟨7⟩
      rfl rfl rfl rfl).trans (by decide)

/-- The polling loop never looks at the scan-IDs file, so the read outcome
does not affect it. -/
theorem waitLoop_withReadError (env : Env) (m : String) :
    ∀ (fuel i : Nat), waitLoop (env.withReadError m) i fuel = waitLoop env i fuel := by
  intro fuel
  induction fuel with
  | zero => intro i; rfl
  | succ fuel ih =>
    intro i
    unfold waitLoop
    rw [show (env.withReadError m).heights = env.heights from rfl]
    cases env.heights i with
    | error e => rfl
    | ok p =>
      obtain ⟨wh, bh⟩ := p
      by_cases hwb : wh = bh
      · simp [hwb]
      · simp [hwb, ih (i + 1)]

/-- C9 (read failures are absorbed): any failure to read the scan-IDs file
makes `ensure_node_registered_scans` register fresh scans (a registration
call is always attempted) and its outcome does not depend on the read error
at all; only a parse error of a successfully read file is returned to the
caller, as that parse error, with nothing else attempted. -/
theorem ensure_read_error_behavior (env : Env) (fuel : Nat) :
    (∀ m, env.readFile = .error m →
        .registerScan env.oracleTokenId ∈ (ensure_node_registered_scans env fuel).2) ∧
    (∀ m m2, ensure_node_registered_scans (env.withReadError m) fuel =
        ensure_node_registered_scans (env.withReadError m2) fuel) ∧
    (∀ s e, env.readFile = .ok s →
        NodeScanRegistry.load_from_json_str s = .error e →
        ensure_node_registered_scans env fuel = (.error e, [.readFile])) := by
  refine ⟨?_, ?_, ?_⟩
  · intro m hread
    unfold ensure_node_registered_scans register_and_save_scans_inner
    rw [hread]
    cases hreg : env.registerScan with
    | error e => simp
    | ok sid =>
      cases hwrite : env.writeFile (NodeScanRegistry.save_to_json_str ⟨⟨sid⟩⟩) with
      | error msg => simp [hwrite]
      | ok u =>
        cases u
        cases hrescan : env.rescan with
        | error e => simp [hwrite, hrescan]
        | ok u2 =>
          cases u2
          simp [hwrite, hrescan]
  · intro m m2
    have h2 : ∀ m3 : String, wait_for_node_rescan (env.withReadError m3) fuel
        = wait_for_node_rescan env fuel := by
      intro m3
      unfold wait_for_node_rescan
      rw [show (env.withReadError m3).heights = env.heights from rfl,
        waitLoop_withReadError env m3 fuel 1]
    have key : ∀ m3 : String, ensure_node_registered_scans (env.withReadError m3) fuel =
        (match register_and_save_scans_inner env with
         | (.error e, tr) => (.error e, ScanEvent.readFile :: tr)
         | (.ok registry, tr) =>
           (liftWait (wait_for_node_rescan env fuel).1 registry,
            ScanEvent.readFile :: (tr ++ (wait_for_node_rescan env fuel).2))) := by
      intro m3
      have h1 : register_and_save_scans_inner (env.withReadError m3)
          = register_and_save_scans_inner env := rfl
      unfold ensure_node_registered_scans
      rw [show (env.withReadError m3).readFile = Except.error m3 from rfl, h1]
      rcases hr : register_and_save_scans_inner env with ⟨res, tr⟩
      cases res with
      | error e => rfl
      | ok reg => simp only [h2 m3]
    rw [key m, key m2]
  · intro s e hread hload
    unfold ensure_node_registered_scans
    rw [hread]
    simp [hload]

/-- Witness for C9: the read-failure theorem at concrete collaborator
responses (a failing read with failing registration, two distinct read
errors, and a malformed readable file). -/
theorem ensure_read_error_behavior_witness :
    ScanEvent.registerScan ⟨42⟩ ∈ (ensure_node_registered_scans envC 1).2 ∧
    ensure_node_registered_scans (envC.withReadError "missing") 1 =
      ensure_node_registered_scans (envC.withReadError "locked") 1 ∧
    ensure_node_registered_scans envD 1 = (.error (.parse "invalid json"), [.readFile]) :=
  ⟨(ensure_read_error_behavior envC 1).1 "permission denied" rfl,
   (ensure_read_error_behavior envC 1).2.1 "missing" "locked",
   (ensure_read_error_behavior envD 1).2.2 "not json" (.parse "invalid json")
     rfl (by decide)⟩

/-- Appending to the left preserves the last element. -/
theorem getLast_eq_of_cons {α : Type} (a : α) (l : List α) (x : α)
    (h : l.getLast? = some x) : (a :: l).getLast? = some x := by
  cases l with
  | nil => simp at h
  | cons b bs =>
    rw [List.getLast?_cons_cons]
    exact h

/-- The last element of a list with a nonempty-by-last suffix is the
suffix's last element. -/
theorem getLast_eq_of_append {α : Type} (l1 l2 : List α) (x : α)
    (h : l2.getLast? = some x) : (l1 ++ l2).getLast? = some x := by
  induction l1 with
  | nil => simpa using h
  | cons a l1 ih =>
    rw [List.cons_append]
    exact getLast_eq_of_cons a (l1 ++ l2) x ih

/-- A polling loop that returns success last observed two equal heights. -/
theorem waitLoop_ok_last (env : Env) :
    ∀ (fuel i : Nat), (waitLoop env i fuel).1 = .ok () →
      ∃ h, (waitLoop env i fuel).2.getLast? = some (.pollHeights h h) := by
  intro fuel
  induction fuel with
  | zero =>
    intro i h
    simp [waitLoop] at h
  | succ fuel ih =>
    intro i hok
    cases hh : env.heights i with
    | error e =>
      unfold waitLoop at hok
      rw [hh] at hok
      simp at hok
    | ok p =>
      obtain ⟨wh, bh⟩ := p
      have hred : waitLoop env i (fuel + 1) =
          (if wh = bh then
            ((.ok (), [.pollHeights wh bh]) : RunResult NodeApiError Unit × List ScanEvent)
           else ((waitLoop env (i + 1) fuel).1,
             .pollHeights wh bh :: .sleepSec 1 :: (waitLoop env (i + 1) fuel).2)) := by
        simp only [waitLoop]
        rw [hh]
      rw [hred] at hok ⊢
      by_cases hwb : wh = bh
      · rw [if_pos hwb] at hok ⊢
        subst hwb
        exact ⟨wh, by simp⟩
      · rw [if_neg hwb] at hok ⊢
        obtain ⟨h, hlast⟩ := ih (i + 1) hok
        exact ⟨h, getLast_eq_of_cons _ _ _ (getLast_eq_of_cons _ _ _ hlast)⟩

/-- `wait_for_node_rescan` returns success only having last observed two
equal heights. -/
theorem wait_ok_last (env : Env) (fuel : Nat)
    (hok : (wait_for_node_rescan env fuel).1 = .ok ()) :
    ∃ h, (wait_for_node_rescan env fuel).2.getLast? = some (.pollHeights h h) := by
  cases hh : env.heights 0 with
  | error e =>
    unfold wait_for_node_rescan at hok
    rw [hh] at hok
    simp at hok
  | ok p =>
    obtain ⟨wh, bh⟩ := p
    have hred : wait_for_node_rescan env fuel =
        (if wh = bh then
          ((.ok (), [.pollHeights wh bh]) : RunResult NodeApiError Unit × List ScanEvent)
         else ((waitLoop env 1 fuel).1, .pollHeights wh bh :: (waitLoop env 1 fuel).2)) := by
      unfold wait_for_node_rescan
      rw [hh]
    rw [hred] at hok ⊢
    by_cases hwb : wh = bh
    · rw [if_pos hwb] at hok ⊢
      subst hwb
      exact ⟨wh, by simp⟩
    · rw [if_neg hwb] at hok ⊢
      obtain ⟨h, hlast⟩ := waitLoop_ok_last env fuel 1 hok
      exact ⟨h, getLast_eq_of_cons _ _ _ hlast⟩

/-- A polling loop whose heights never agree never returns. -/
theorem waitLoop_never_ok (env : Env)
    (hne : ∀ k, ∃ wh bh, env.heights k = .ok (wh, bh) ∧ wh ≠ bh) :
    ∀ (fuel i : Nat), (waitLoop env i fuel).1 = .outOfFuel := by
  intro fuel
  induction fuel with
  | zero => intro i; rfl
  | succ fuel ih =>
    intro i
    obtain ⟨wh, bh, hh, hwb⟩ := hne i
    unfold waitLoop
    rw [hh]
    simp [hwb, ih (i + 1)]

/-- `wait_for_node_rescan` on never-agreeing heights exhausts any fuel. -/
theorem wait_never_ok (env : Env) (fuel : Nat)
    (hne : ∀ k, ∃ wh bh, env.heights k = .ok (wh, bh) ∧ wh ≠ bh) :
    (wait_for_node_rescan env fuel).1 = .outOfFuel := by
  obtain ⟨wh, bh, hh, hwb⟩ := hne 0
  unfold wait_for_node_rescan
  rw [hh]
  simp [hwb, waitLoop_never_ok env hne fuel 1]

/-- Every sleep of the polling loop is one second long. -/
theorem waitLoop_sleeps_one (env : Env) :
    ∀ (fuel i n : Nat), .sleepSec n ∈ (waitLoop env i fuel).2 → n = 1 := by
  intro fuel
  induction fuel with
  | zero =>
    intro i n h
    simp [waitLoop] at h
  | succ fuel ih =>
    intro i n h
    unfold waitLoop at h
    cases hh : env.heights i with
    | error e =>
      rw [hh] at h
      simp at h
    | ok p =>
      obtain ⟨wh, bh⟩ := p
      rw [hh] at h
      by_cases hwb : wh = bh
      · simp [hwb] at h
      · simp [hwb] at h
        rcases h with h1 | h1
        · exact h1
        · exact ih (i + 1) n h1

/-- Every sleep of `wait_for_node_rescan` is one second long. -/
theorem wait_sleeps_one (env : Env) (fuel : Nat) :
    ∀ n, .sleepSec n ∈ (wait_for_node_rescan env fuel).2 → n = 1 := by
  intro n h
  unfold wait_for_node_rescan at h
  cases hh : env.heights 0 with
  | error e =>
    rw [hh] at h
    simp at h
  | ok p =>
    obtain ⟨wh, bh⟩ := p
    rw [hh] at h
    by_cases hwb : wh = bh
    · simp [hwb] at h
    · simp [hwb] at h
      exact waitLoop_sleeps_one env fuel 1 n h

/-- A successful lift of the wait result means the wait succeeded and the
registry is passed through. -/
theorem liftWait_ok_elim {r : RunResult NodeApiError Unit}
    {reg reg2 : NodeScanRegistry} (h : liftWait r reg = .ok reg2) :
    r = .ok () ∧ reg2 = reg := by
  cases r with
  | ok u =>
    cases u
    simp [liftWait] at h
    exact ⟨rfl, h.symm⟩
  | error e => simp [liftWait] at h
  | outOfFuel => simp [liftWait] at h

/-- C4 (rescan-wait blocking contract): `ensure_node_registered_scans`
never returns success without its final height poll having observed the
wallet height equal to the chain height; if the polled heights never agree,
`wait_for_node_rescan` never returns within any observation bound (no
timeout); and every sleep between polls is the fixed one-second interval. -/
theorem rescan_wait_blocking (env : Env) (fuel : Nat) :
    (∀ reg tr, ensure_node_registered_scans env fuel = (.ok reg, tr) →
        ∃ h, tr.getLast? = some (.pollHeights h h)) ∧
    ((∀ k, ∃ wh bh, env.heights k = .ok (wh, bh) ∧ wh ≠ bh) →
        (wait_for_node_rescan env fuel).1 = .outOfFuel) ∧
    (∀ n, .sleepSec n ∈ (wait_for_node_rescan env fuel).2 → n = 1) := by
  refine ⟨?_, wait_never_ok env fuel, wait_sleeps_one env fuel⟩
  intro reg tr h
  cases hread : env.readFile with
  | ok s =>
    have hens : ensure_node_registered_scans env fuel =
        (match NodeScanRegistry.load_from_json_str s with
         | .error e => (.error e, [ScanEvent.readFile])
         | .ok registry =>
           (liftWait (wait_for_node_rescan env fuel).1 registry,
            ScanEvent.readFile :: (wait_for_node_rescan env fuel).2)) := by
      unfold ensure_node_registered_scans
      rw [hread]
    rw [hens] at h
    cases hload : NodeScanRegistry.load_from_json_str s with
    | error e =>
      rw [hload] at h
      simp at h
    | ok reg2 =>
      rw [hload] at h
      simp only [Prod.mk.injEq] at h
      obtain ⟨hres, htr⟩ := h
      obtain ⟨hw, rfl⟩ := liftWait_ok_elim hres
      obtain ⟨hh, hlast⟩ := wait_ok_last env fuel hw
      subst htr
      exact ⟨hh, getLast_eq_of_cons _ _ _ hlast⟩
  | error m =>
    have hens : ensure_node_registered_scans env fuel =
        (match register_and_save_scans_inner env with
         | (.error e, tr) => (.error e, ScanEvent.readFile :: tr)
         | (.ok registry, tr) =>
           (liftWait (wait_for_node_rescan env fuel).1 registry,
            ScanEvent.readFile :: (tr ++ (wait_for_node_rescan env fuel).2))) := by
      unfold ensure_node_registered_scans
      rw [hread]
    rw [hens] at h
    rcases hinner : register_and_save_scans_inner env with ⟨res, tr2⟩
    rw [hinner] at h
    cases res with
    | error e => simp at h
    | ok reg2 =>
      simp only [Prod.mk.injEq] at h
      obtain ⟨hres, htr⟩ := h
      obtain ⟨hw, rfl⟩ := liftWait_ok_elim hres
      obtain ⟨hh, hlast⟩ := wait_ok_last env fuel hw
      subst htr
      exact ⟨hh, getLast_eq_of_cons _ _ _ (getLast_eq_of_append _ _ _ hlast)⟩

/-- Witness for C4: a successful run whose final poll saw equal heights,
and a never-converging node on which the wait exhausts its bound. -/
theorem rescan_wait_blocking_witness :
    (∃ h, ([ScanEvent.readFile, ScanEvent.pollHeights 5 5].getLast? =
        some (ScanEvent.pollHeights h h))) ∧
    (wait_for_node_rescan envE 3).1 = .outOfFuel :=
  ⟨(rescan_wait_blocking envA 1).1 ⟨⟨⟨185⟩⟩⟩ [.readFile, .pollHeights 5 5] (by decide),
   (rescan_wait_blocking envE 3).2.1 (fun _ => ⟨3, 5, rfl, by decide⟩)⟩

/-- C7 (deregistration attempts every handle): for every registry and every
node behaviour, `deregister_all_scans` attempts exactly the registry's full
list of handles — the single oracle-token scan handle, which is attempted
before any failure can interrupt the loop — and a node failure on that
handle is surfaced verbatim as the returned error. -/
theorem deregister_attempts_all (r : NodeScanRegistry)
    (f : ScanId → Except NodeApiError Unit) :
    (r.deregister_all_scans f).2 = r.node_scans.map (fun s => s.scan_id) ∧
    (∀ e, f r.oracle_token_scan.scan_id = .error e →
        (r.deregister_all_scans f).1 = .error e) := by
  constructor
  · unfold NodeScanRegistry.deregister_all_scans NodeScanRegistry.node_scans
    cases hf : f r.oracle_token_scan.scan_id <;>
      simp [deregister_loop, hf]
  · intro e he
    unfold NodeScanRegistry.deregister_all_scans NodeScanRegistry.node_scans
    simp [deregister_loop, he]

/-- Witness for C7: every handle of a concrete registry is attempted
against a node that rejects deregistration, and the rejection is surfaced. -/
theorem deregister_attempts_all_witness :
    ((⟨⟨⟨185⟩⟩⟩ : NodeScanRegistry).deregister_all_scans
        (fun _ => .error (.rpc "node down"))).2 =
      (⟨⟨⟨185⟩⟩⟩ : NodeScanRegistry).node_scans.map (fun s => s.scan_id) ∧
    ((⟨⟨⟨185⟩⟩⟩ : NodeScanRegistry).deregister_all_scans
        (fun _ => .error (.rpc "node down"))).1 = .error (.rpc "node down") :=
  ⟨(deregister_attempts_all ⟨⟨⟨185⟩⟩⟩ (fun _ => .error (.rpc "node down"))).1,
   (deregister_attempts_all ⟨⟨⟨185⟩⟩⟩ (fun _ => .error (.rpc "node down"))).2
     (.rpc "node down") rfl⟩

/-- C10 (datapoint-source precedence): `RuntimeDataPointSource::new` returns
the external-script variant whenever a custom shell command is given (the
predefined source, even if also given, is ignored), the predefined variant
when only a predefined source is given, and an error exactly when both
arguments are absent. -/
theorem datapoint_source_precedence :
    (∀ (predef : Option PredefinedDataPointSource) (cmd : String),
        RuntimeDataPointSource.new predef (some cmd) =
          .ok (.externalScript (ExternalScript.new cmd))) ∧
    (∀ p : PredefinedDataPointSource,
        RuntimeDataPointSource.new (some p) none = .ok (.predefined p)) ∧
    RuntimeDataPointSource.new none none =
      .error "pool config data_point_source is empty along with data_point_source_custom_script in the oracle config" :=
  ⟨fun _ _ => rfl, fun _ => rfl, rfl⟩

/-- C8 (end-to-end bootstrap scenario): from a fresh simulated chain with a
single funded wallet box of 100,000,000 base units, the chained bootstrap
succeeds, finalizes an oracle configuration whose minted token ids are the
ids of the boxes that authorized each mint, and leaves the chain at height
8 — the starting height 1 (after the one funding block) plus the number of
bootstrap transactions. -/
theorem bootstrap_end_to_end :
    test_bootstrap_and_run =
      .ok (⟨[⟨0⟩, ⟨1⟩, ⟨2⟩, ⟨3⟩, ⟨4⟩, ⟨5⟩]⟩, ⟨8, [⟨7, 93000000⟩], 8⟩) ∧
    (8 : Nat) = 1 + bootstrapSteps.length :=
  ⟨by decide, rfl⟩
